/-
Verification of the QR-code generator front-end pipeline
(`src/components/QrPreview.tsx`: the `qr` adapter, the SVG renderer and
the PNG exporter) against its natural-language specification.

The TypeScript source is shallowly embedded below:
  * JavaScript numbers are modelled by `JSNum` (NaN, the two infinities and
    exact rationals) with the JS semantics of `Math.trunc`, `Math.min`,
    `Math.max`, `Math.round`, `||`-defaulting, `>` and multiplication.
  * The external engine `qrcodegen` (imported from `../libs/qrCodeGenerator`,
    which is not among the repository sources) is treated as a black box: its
    `encodeSegments` entry point is a parameter of `generateQrCode`, and its
    segment constructors are modelled from the specification (see the doc
    comments starting with `Modelled from the spec:`).
  * Strings are Lean `String`s; the JS `String.prototype.trim` and the regex
    `/viewBox="[^"]*\s([\d.]+)\s([\d.]+)"/i` are given explicit executable
    models (`jsTrim`, `findViewBox`) with JS leftmost-match / greedy
    backtracking semantics.
  * The browser side effects of `saveSvgAsPng` (object-URL lifecycle, image
    decode, canvas) are modelled as an explicit environment plus an event
    trace.
-/
import Mathlib

namespace QrGen

/-! ## JavaScript number model -/

/-- A JavaScript `number`: NaN, the two infinities, or a finite value
(modelled as an exact rational; all values appearing in this program are
exactly representable doubles). -/
inductive JSNum where
  | nan : JSNum
  | posInf : JSNum
  | negInf : JSNum
  | num : ℚ → JSNum
deriving DecidableEq, Repr

/-- Truncation of a rational toward zero (the value of `Math.trunc`). -/
def ratTrunc (q : ℚ) : ℤ := q.num.tdiv (q.den : ℤ)

/-- `Math.trunc`. -/
def jsTrunc : JSNum → JSNum
  | .nan => .nan
  | .posInf => .posInf
  | .negInf => .negInf
  | .num q => .num (ratTrunc q)

/-- JS falsiness of a number: `NaN`, `0` and `-0` are falsy. -/
def jsFalsy : JSNum → Bool
  | .nan => true
  | .num q => q == 0
  | _ => false

/-- The JS `a || b` idiom on numbers: `b` when `a` is falsy, else `a`. -/
def jsOrDefault (a b : JSNum) : JSNum := if jsFalsy a then b else a

/-- `Math.max` (NaN-propagating). -/
def jsMax : JSNum → JSNum → JSNum
  | .nan, _ => .nan
  | _, .nan => .nan
  | .posInf, _ => .posInf
  | _, .posInf => .posInf
  | .negInf, b => b
  | a, .negInf => a
  | .num a, .num b => .num (max a b)

/-- `Math.min` (NaN-propagating). -/
def jsMin : JSNum → JSNum → JSNum
  | .nan, _ => .nan
  | _, .nan => .nan
  | .negInf, _ => .negInf
  | _, .negInf => .negInf
  | .posInf, b => b
  | a, .posInf => a
  | .num a, .num b => .num (min a b)

/-- The JS `>` comparison on numbers (false whenever an operand is NaN). -/
def jsGt : JSNum → JSNum → Bool
  | .nan, _ => false
  | _, .nan => false
  | .posInf, .posInf => false
  | .posInf, _ => true
  | _, .posInf => false
  | .negInf, _ => false
  | _, .negInf => true
  | .num a, .num b => a > b

/-- `Number.isFinite`. -/
def jsIsFinite : JSNum → Bool
  | .num _ => true
  | _ => false

/-- JS multiplication. -/
def jsMul : JSNum → JSNum → JSNum
  | .nan, _ => .nan
  | _, .nan => .nan
  | .posInf, .posInf => .posInf
  | .posInf, .negInf => .negInf
  | .posInf, .num q => if 0 < q then .posInf else if q < 0 then .negInf else .nan
  | .negInf, .posInf => .negInf
  | .negInf, .negInf => .posInf
  | .negInf, .num q => if 0 < q then .negInf else if q < 0 then .posInf else .nan
  | .num q, .posInf => if 0 < q then .posInf else if q < 0 then .negInf else .nan
  | .num q, .negInf => if 0 < q then .negInf else if q < 0 then .posInf else .nan
  | .num a, .num b => .num (a * b)

/-- `Math.round`: half-way cases round toward positive infinity. -/
def jsRound : JSNum → JSNum
  | .nan => .nan
  | .posInf => .posInf
  | .negInf => .negInf
  | .num q => .num (⌊q + 1/2⌋ : ℤ)

/-! ## Option resolver (`clampVersion`, source lines 346–348) -/

/-- `clampVersion` (source): `Math.min(40, Math.max(1, Math.trunc(value) || 1))`. -/
def clampVersion (value : JSNum) : JSNum :=
  jsMin (.num 40) (jsMax (.num 1) (jsOrDefault (jsTrunc value) (.num 1)))

/-- The behaviour of `clampVersion` restated arithmetically: truncate toward
zero; substitute 1 when the truncated value is `0` or `NaN`; clamp into
`[1,40]` (sending `-Infinity` to 1 and `+Infinity` to 40). -/
def clampVersionSpec : JSNum → ℤ
  | .nan => 1
  | .posInf => 40
  | .negInf => 1
  | .num q => if ratTrunc q = 0 then 1 else min 40 (max 1 (ratTrunc q))

/-! ## Data model of the adapter boundary (`src/lib-adapters/qr`, lines 293–344) -/

/-- The engine's mode descriptor: the adapter only reads `mode.modeBits`. -/
structure SegmentMode where
  modeBits : ℕ
deriving DecidableEq, Repr

/-- An engine segment as seen through the adapter: its mode and its
character count (payload contents are never inspected by the adapter). -/
structure QrSegment where
  mode : SegmentMode
  numChars : ℕ
deriving DecidableEq, Repr

/-- Requested encoding mode (`QrMode`). -/
inductive QrMode where
  | auto | numeric | alphanumeric | byte
deriving DecidableEq, Repr

/-- Requested error-correction level (`QrEcc`). -/
inductive QrEcc where
  | LOW | MEDIUM | QUARTILE | HIGH
deriving DecidableEq, Repr

/-- Reported used mode (`QrModeUsed`). -/
inductive QrModeUsed where
  | none | numeric | alphanumeric | byte | mixed
deriving DecidableEq, Repr

/-- Mask request (`QrMask`): `'auto'` or an explicit index `0..7`. -/
inductive QrMaskChoice where
  | auto : QrMaskChoice
  | fixed : Fin 8 → QrMaskChoice
deriving DecidableEq, Repr

/-- The engine's result object, as read by the adapter: matrix size,
per-cell dark flag (`getModule`), final version, ECC ordinal and mask. -/
structure QrCode where
  size : ℕ
  getModule : ℕ → ℕ → Bool
  version : ℕ
  eccOrdinal : ℕ
  mask : ℕ

/-- `GenerateQrOptions` (source lines 301–309); the two version fields are
raw user-controlled JS numbers. -/
structure GenerateQrOptions where
  text : String
  mode : QrMode
  ecl : QrEcc
  minVersion : JSNum
  maxVersion : JSNum
  mask : QrMaskChoice
  boostEcl : Bool

/-- The metadata record of `GenerateQrResult` (source lines 313–323).
`actualEcl` is `Option`al because the source's `ECL_BY_ORDINAL` record
lookup yields `undefined` outside `0..3`. -/
structure QrMetadata where
  requestedMode : QrMode
  usedMode : QrModeUsed
  requestedEcl : QrEcc
  actualEcl : Option QrEcc
  version : ℕ
  size : ℕ
  mask : ℕ
  segmentCount : ℕ
  darkModules : ℕ
deriving DecidableEq, Repr

/-- `GenerateQrResult` (source lines 311–324). -/
structure GenerateQrResult where
  svg : String
  metadata : QrMetadata
deriving DecidableEq, Repr

/-! ## Engine segment constructors

The engine (`src/libs/qrCodeGenerator`) is not among the repository
sources; its segment constructors are modelled from the specification. -/

/-- Modelled from the spec: the engine's numeric-eligibility classifier
(`QrSegment.isNumeric`, §6): true exactly when every character is a digit
`0-9`. -/
def isNumericText (t : String) : Bool := t.data.all (·.isDigit)

/-- The alphanumeric-mode alphabet (§4.2): digits, uppercase `A-Z`, space
and `$%*+-./:`. -/
def ALPHANUMERIC_CHARSET : List Char := "0123456789ABCDEFGHIJKLMNOPQRSTUVWXYZ $%*+-./:".data

/-- Modelled from the spec: the engine's alphanumeric-eligibility
classifier (`QrSegment.isAlphanumeric`, §6). -/
def isAlphanumericText (t : String) : Bool := t.data.all (ALPHANUMERIC_CHARSET.contains ·)

/-- Failure of an explicit-mode segment constructor on text outside the
mode's alphabet (`UnsupportedCharacters`, §4.2/§7). -/
inductive SegmentError where
  | unsupportedCharacters : QrMode → SegmentError
deriving DecidableEq, Repr

/-- Modelled from the spec: `QrSegment.makeNumeric` — exactly one
numeric-mode segment (mode bits `0x1`, which is what the source's
`MODE_BY_BITS` table records for numeric), failing on any non-digit. -/
def makeNumeric (t : String) : Except SegmentError QrSegment :=
  if isNumericText t then .ok ⟨⟨1⟩, t.length⟩
  else .error (.unsupportedCharacters .numeric)

/-- Modelled from the spec: `QrSegment.makeAlphanumeric` — exactly one
alphanumeric-mode segment (mode bits `0x2`), failing outside the
45-character alphabet. -/
def makeAlphanumeric (t : String) : Except SegmentError QrSegment :=
  if isAlphanumericText t then .ok ⟨⟨2⟩, t.length⟩
  else .error (.unsupportedCharacters .alphanumeric)

/-- The UTF-8 byte sequence of a string (`new TextEncoder().encode(text)`,
i.e. the bytes of `String.toUTF8`, listed). -/
def utf8Bytes (t : String) : List ℕ :=
  (t.data.flatMap String.utf8EncodeChar).map (·.toNat)

/-- Modelled from the spec: `QrSegment.makeBytes` — exactly one byte-mode
segment (mode bits `0x4`) over a raw byte list; always succeeds. -/
def makeBytes (bytes : List ℕ) : QrSegment := ⟨⟨4⟩, bytes.length⟩

/-- Modelled from the spec: `QrSegment.makeSegments`, the engine's
automatic segmenter (§4.2, §6). The spec fixes that it yields zero
segments exactly for empty text ("zero only for empty text") and otherwise
mode-tagged segments chosen to minimise bit length; we model the mode
choice as the cheapest single applicable mode. -/
def makeSegments (t : String) : List QrSegment :=
  if t = "" then []
  else if isNumericText t then [⟨⟨1⟩, t.length⟩]
  else if isAlphanumericText t then [⟨⟨2⟩, t.length⟩]
  else [makeBytes (utf8Bytes t)]

/-! ## Segment builder (`buildSegments`, source lines 350–364) -/

/-- `buildSegments` (source): `auto` delegates to the engine's automatic
segmenter; `numeric`/`alphanumeric` build exactly one segment of that kind
(propagating the constructor's failure); anything else is one UTF-8 byte
segment. -/
def buildSegments (text : String) (mode : QrMode) :
    Except SegmentError (List QrSegment) :=
  match mode with
  | .auto => .ok (makeSegments text)
  | .numeric => (makeNumeric text).map (fun s => [s])
  | .alphanumeric => (makeAlphanumeric text).map (fun s => [s])
  | .byte => .ok [makeBytes (utf8Bytes text)]

/-! ## Mode classifier (`detectUsedMode`, source lines 366–383) -/

/-- The source's `MODE_BY_BITS` record: `0x1 → numeric`, `0x2 →
alphanumeric`, `0x4 → byte`, anything else absent (`undefined`). -/
def MODE_BY_BITS (bits : ℕ) : Option QrModeUsed :=
  if bits = 1 then some .numeric
  else if bits = 2 then some .alphanumeric
  else if bits = 4 then some .byte
  else none

/-- The per-segment lookup `MODE_BY_BITS[segment.mode.modeBits] ?? 'mixed'`. -/
def segUsedMode (s : QrSegment) : QrModeUsed :=
  (MODE_BY_BITS s.mode.modeBits).getD .mixed

/-- `detectUsedMode` (source): empty list reports `none`; otherwise the
distinct per-segment modes are collected in first-seen order (the JS `Set`)
and a singleton collection reports its sole element, anything else `mixed`. -/
def detectUsedMode (segments : List QrSegment) : QrModeUsed :=
  if segments.length = 0 then .none
  else
    let used := segments.foldl
      (fun acc s =>
        let m := segUsedMode s
        if acc.contains m then acc else acc ++ [m])
      ([] : List QrModeUsed)
    match used with
    | [single] => single
    | _ => .mixed

/-! ## Metadata extractor (`countDarkModules`, source lines 385–395) -/

/-- `countDarkModules` (source): scan the full matrix, `y` outer then `x`
inner, incrementing a counter on every dark cell. -/
def countDarkModules (qr : QrCode) : ℕ :=
  (List.range qr.size).foldl
    (fun dark y =>
      (List.range qr.size).foldl
        (fun dark x => if qr.getModule x y then dark + 1 else dark)
        dark)
    0

/-! ## Vector renderer (`toSvg`, source lines 293 and 397–410) -/

/-- `SVG_BORDER` (source line 293). -/
def SVG_BORDER : ℕ := 2

/-- The set of characters trimmed (and matched by `\s`) in JavaScript,
given by code point: ASCII whitespace (TAB, LF, VT, FF, CR, SP) plus NBSP,
the Unicode space separators, LS/PS, NNBSP, MMSP, ideographic space and
the BOM. -/
def isSpaceJS (c : Char) : Bool :=
  c.toNat == 32 || c.toNat == 9 || c.toNat == 10 || c.toNat == 13 ||
    c.toNat == 11 || c.toNat == 12 || c.toNat == 160 || c.toNat == 5760 ||
    (8192 ≤ c.toNat && c.toNat ≤ 8202) || c.toNat == 8232 || c.toNat == 8233 ||
    c.toNat == 8239 || c.toNat == 8287 || c.toNat == 12288 || c.toNat == 65279

/-- JS `String.prototype.trim`: drop leading and trailing whitespace. -/
def jsTrim (s : String) : String :=
  ⟨((s.data.dropWhile isSpaceJS).reverse.dropWhile isSpaceJS).reverse⟩

/-- The path accumulation loop of `toSvg`: for each `y` then each `x`, a
dark cell appends `M${x + SVG_BORDER},${y + SVG_BORDER}h1v1h-1z ` (with a
trailing space) to the accumulator. -/
def toSvgPath (qr : QrCode) : String :=
  (List.range qr.size).foldl
    (fun path y =>
      (List.range qr.size).foldl
        (fun path x =>
          if qr.getModule x y then
            path ++ ("M" ++ toString (x + SVG_BORDER) ++ "," ++
              toString (y + SVG_BORDER) ++ "h1v1h-1z ")
          else path)
        path)
    ""

/-- `toSvg` (source): the template string with viewing box
`size + SVG_BORDER * 2`, one background rect and one path whose `d` is the
trimmed accumulated subpath string. -/
def toSvg (qr : QrCode) : String :=
  let viewBox := qr.size + SVG_BORDER * 2
  "<svg xmlns=\"http://www.w3.org/2000/svg\" viewBox=\"0 0 " ++ toString viewBox ++
    " " ++ toString viewBox ++
    "\" shape-rendering=\"crispEdges\"><rect width=\"100%\" height=\"100%\" fill=\"#fff\"/><path d=\"" ++
    jsTrim (toSvgPath qr) ++ "\" fill=\"#000\"/></svg>"

/-! ## The pipeline (`generateQrCode`, source lines 326–338 and 422–454) -/

/-- The source's `ECL_BY_ORDINAL` record: ordinals `0..3` to levels,
`undefined` elsewhere. -/
def ECL_BY_ORDINAL (n : ℕ) : Option QrEcc :=
  if n = 0 then some .LOW
  else if n = 1 then some .MEDIUM
  else if n = 2 then some .QUARTILE
  else if n = 3 then some .HIGH
  else none

/-- Failures of the engine's `encodeSegments` (external; `CapacityExceeded`
per §6/§7, plus a catch-all for any other engine throw). -/
inductive EngineError where
  | capacityExceeded : EngineError
  | other : String → EngineError
deriving DecidableEq, Repr

/-- The engine's `encodeSegments` entry point, a black box to the adapter:
segments, requested ECC, clamped min/max version, mask (`-1` = auto) and
the boost flag, yielding a `QrCode` or failing. -/
def QrEngine : Type :=
  List QrSegment → QrEcc → JSNum → JSNum → ℤ → Bool → Except EngineError QrCode

/-- Errors that can escape `generateQrCode`: the `RangeError` thrown for an
inverted version range, a segment-constructor failure, or an engine failure. -/
inductive QrGenError where
  | invalidRange : QrGenError
  | unsupportedCharacters : QrMode → QrGenError
  | engineFailure : EngineError → QrGenError
deriving DecidableEq, Repr

/-- `options.mask === 'auto' ? -1 : options.mask`. -/
def maskToNumber : QrMaskChoice → ℤ
  | .auto => -1
  | .fixed i => (i : ℕ)

/-- `generateQrCode` (source lines 422–454), with the external engine as an
explicit parameter: clamp both version fields, throw `RangeError` when the
clamped minimum exceeds the clamped maximum, build the segments, invoke the
engine, and assemble the SVG plus metadata. -/
def generateQrCode (engine : QrEngine) (options : GenerateQrOptions) :
    Except QrGenError GenerateQrResult :=
  if jsGt (clampVersion options.minVersion) (clampVersion options.maxVersion) then
    .error .invalidRange
  else
    match buildSegments options.text options.mode with
    | .error (.unsupportedCharacters m) => .error (.unsupportedCharacters m)
    | .ok segments =>
      match engine segments options.ecl (clampVersion options.minVersion)
          (clampVersion options.maxVersion) (maskToNumber options.mask) options.boostEcl with
      | .error e => .error (.engineFailure e)
      | .ok qr =>
        .ok
          { svg := toSvg qr
            metadata :=
              { requestedMode := options.mode
                usedMode := detectUsedMode segments
                requestedEcl := options.ecl
                actualEcl := ECL_BY_ORDINAL qr.eccOrdinal
                version := qr.version
                size := qr.size
                mask := qr.mask
                segmentCount := segments.length
                darkModules := countDarkModules qr } }

/-! ## Raster exporter: size inference (`getSvgSize`, source lines 26–40)

The regex `/viewBox="[^"]*\s([\d.]+)\s([\d.]+)"/i` is modelled with JS
semantics: leftmost match, greedy `[^"]*` with backtracking, `\s` the JS
whitespace class and `[\d.]` digits and the dot. -/

/-- `PNG_SCALE` (source line 26). -/
def PNG_SCALE : ℕ := 16

/-- `DEFAULT_PNG_SIZE` (source line 27). -/
def DEFAULT_PNG_SIZE : ℕ := 512

/-- A character of the regex class `[\d.]`. -/
def isDigitDot (c : Char) : Bool := c.isDigit || c == '.'

/-- Matching of the regex tail `\s([\d.]+)\s([\d.]+)"` at a position. The
two `[\d.]+` groups are greedy; since the character following a shortened
group would again be in `[\d.]`, which intersects neither `\s` nor `"`,
the greedy choice is the only possible one and no inner backtracking
remains. Returns the two captured groups. -/
def viewBoxTail (l : List Char) : Option (List Char × List Char) :=
  match l with
  | [] => none
  | c :: rest =>
    if isSpaceJS c then
      let g1 := rest.takeWhile isDigitDot
      let rest1 := rest.drop g1.length
      if g1.isEmpty then none
      else
        match rest1 with
        | [] => none
        | c2 :: rest2 =>
          if isSpaceJS c2 then
            let g2 := rest2.takeWhile isDigitDot
            let rest3 := rest2.drop g2.length
            if g2.isEmpty then none
            else
              match rest3 with
              | '"' :: _ => some (g1, g2)
              | _ => none
          else none
    else none

/-- Greedy backtracking of `[^"]*`: try consuming `n` characters first,
then ever shorter prefixes, and return the first tail match found. -/
def viewBoxStar : ℕ → List Char → Option (List Char × List Char)
  | 0, rest => viewBoxTail rest
  | n + 1, rest =>
    match viewBoxTail (rest.drop (n + 1)) with
    | some r => some r
    | none => viewBoxStar n rest

/-- The body of the pattern after the literal `viewBox="`: `[^"]*` may
consume at most the maximal quote-free prefix. -/
def viewBoxAfterLit (rest : List Char) : Option (List Char × List Char) :=
  viewBoxStar (rest.takeWhile (· ≠ '"')).length rest

/-- Case-insensitive character comparison (the regex `i` flag). -/
def charCI (a b : Char) : Bool := a.toLower == b.toLower

/-- Case-insensitive literal prefix test. -/
def litCI : List Char → List Char → Bool
  | [], _ => true
  | _ :: _, [] => false
  | p :: ps, c :: cs => charCI p c && litCI ps cs

/-- The literal head of the pattern. -/
def viewBoxLit : List Char := "viewBox=\"".data

/-- Leftmost-match scan of the whole subject: at each position, try the
literal (case-insensitively) followed by the star/tail; on failure resume
at the next position. -/
def findViewBox : List Char → Option (List Char × List Char)
  | [] => none
  | c :: cs =>
    if litCI viewBoxLit (c :: cs) then
      match viewBoxAfterLit ((c :: cs).drop viewBoxLit.length) with
      | some r => some r
      | none => findViewBox cs
    else findViewBox cs

/-- The decimal value of a digit string. -/
def digitsVal (l : List Char) : ℕ := l.foldl (fun a c => a * 10 + (c.toNat - 48)) 0

/-- `Number(s)` for a non-empty string `s` of digits and dots: `NaN` when
there are two or more dots or the string is just `"."`, else the decimal
value. -/
def jsParseDigitDot (l : List Char) : JSNum :=
  let dots := l.count '.'
  if dots = 0 then .num (digitsVal l)
  else if dots = 1 then
    let intPart := l.takeWhile (· ≠ '.')
    let fracPart := (l.dropWhile (· ≠ '.')).drop 1
    if intPart = [] ∧ fracPart = [] then .nan
    else .num ((digitsVal intPart : ℚ) + (digitsVal fracPart : ℚ) / (10 ^ fracPart.length))
  else .nan

/-- `getSvgSize` (source lines 29–40): regex-extract the last two tokens of
the `viewBox` attribute, take their maximum, and fall back to
`DEFAULT_PNG_SIZE` when there is no match or the maximum is not a finite
positive number. -/
def getSvgSize (svg : String) : JSNum :=
  match findViewBox svg.data with
  | none => .num DEFAULT_PNG_SIZE
  | some (w, h) =>
    let size := jsMax (jsParseDigitDot w) (jsParseDigitDot h)
    if jsIsFinite size && jsGt size (.num 0) then size else .num DEFAULT_PNG_SIZE

/-- The raster dimension computed by `saveSvgAsPng` (source line 54):
`Math.round(getSvgSize(svg) * PNG_SCALE)`. -/
def pngExportSize (svg : String) : JSNum :=
  jsRound (jsMul (getSvgSize svg) (.num PNG_SCALE))

/-! ## Raster exporter: control flow (`saveSvgAsPng`, source lines 42–75)

The browser effects are modelled by an environment fixing the outcome of
the image decode and of `canvas.getContext`, and by an event trace. -/

/-- Outcome environment for one export attempt. -/
structure BrowserEnv where
  decodeSucceeds : Bool
  contextAvailable : Bool
deriving DecidableEq, Repr

/-- Observable events of one export attempt. -/
inductive ExportEvent where
  | createObjectUrl : ExportEvent
  | imageDecode : Bool → ExportEvent
  | getContext : Bool → ExportEvent
  | drawImage : JSNum → ExportEvent
  | savePng : String → ExportEvent
  | revokeObjectUrl : ExportEvent
deriving DecidableEq, Repr

/-- Failures of `saveSvgAsPng`: the two `Error`s thrown in the source
(`'Unable to render QR image'`, `'Unable to create image canvas'`). -/
inductive ExportError where
  | imageDecodeFailed : ExportError
  | renderUnavailable : ExportError
deriving DecidableEq, Repr

/-- The `try` block of `saveSvgAsPng`: await the decode (rejecting on
decode failure), compute the raster size, obtain a context (throwing when
unavailable), draw and trigger the save. -/
def saveSvgAsPngBody (env : BrowserEnv) (svg filename : String) :
    Except ExportError Unit × List ExportEvent :=
  if !env.decodeSucceeds then
    (.error .imageDecodeFailed, [.imageDecode false])
  else
    let size := pngExportSize svg
    if !env.contextAvailable then
      (.error .renderUnavailable, [.imageDecode true, .getContext false])
    else
      (.ok (), [.imageDecode true, .getContext true, .drawImage size, .savePng filename])

/-- `saveSvgAsPng` (source lines 42–75): create the object URL, run the
`try` block, and — via `finally` — revoke the URL on every exit path. -/
def saveSvgAsPng (env : BrowserEnv) (svg filename : String) :
    Except ExportError Unit × List ExportEvent :=
  let body := saveSvgAsPngBody env svg filename
  (body.1, .createObjectUrl :: (body.2 ++ [.revokeObjectUrl]))


/-! ## Specification-side definitions and fixtures used by the theorems -/

/-- One closed unit-square subpath at the border-offset position of a dark
cell, as §4.4 describes it: `M(x+2),(y+2)h1v1h-1z`. -/
def cellSubpath (c : ℕ × ℕ) : String :=
  "M" ++ toString (c.1 + 2) ++ "," ++ toString (c.2 + 2) ++ "h1v1h-1z"

/-- The dark cells of a matrix in row-major order (`y` outer, `x` inner). -/
def darkCells (qr : QrCode) : List (ℕ × ℕ) :=
  (List.range qr.size).flatMap fun y =>
    ((List.range qr.size).filter fun x => qr.getModule x y).map fun x => (x, y)

/-- The space-joined sequence of drawing commands (§6). -/
def spaceJoined : List String → String
  | [] => ""
  | [s] => s
  | s :: rest => s ++ " " ++ spaceJoined rest

/-- Character-list view of dropping leading JS whitespace. -/
def trimLeftChars (l : List Char) : List Char := l.dropWhile isSpaceJS

/-- Character-list view of dropping trailing JS whitespace. -/
def trimRightChars (l : List Char) : List Char := (l.reverse.dropWhile isSpaceJS).reverse

/-- Character-list view of `spaceJoined`. -/
def interData : List (List Char) → List Char
  | [] => []
  | [l] => l
  | l :: rest => l ++ ' ' :: interData rest

/-- The `Set`-accumulation loop of `detectUsedMode`, with explicit
accumulator (insertion order preserved, duplicates skipped). -/
def usedFold (acc : List QrModeUsed) (segs : List QrSegment) : List QrModeUsed :=
  segs.foldl
    (fun acc s =>
      let m := segUsedMode s
      if acc.contains m then acc else acc ++ [m])
    acc

/-- Strict row-major order on cells: top-to-bottom, then left-to-right. -/
def rowMajorLt (a b : ℕ × ℕ) : Prop := a.2 < b.2 ∨ (a.2 = b.2 ∧ a.1 < b.1)

/-- A concrete vector document declaring `viewBox="0 0 25 25"` (the shape
of the renderer's output for a version-1 symbol). -/
def doc25 : String :=
  "<svg xmlns=\"http://www.w3.org/2000/svg\" viewBox=\"0 0 25 25\" shape-rendering=\"crispEdges\"><rect width=\"100%\" height=\"100%\" fill=\"#fff\"/><path d=\"\" fill=\"#000\"/></svg>"

/-- Decidable equality for `Except` results (used to evaluate the pipeline
on concrete inputs). -/
instance {e a : Type} [DecidableEq e] [DecidableEq a] : DecidableEq (Except e a) :=
  fun x y =>
    match x, y with
    | .error u, .error v =>
      if h : u = v then .isTrue (by rw [h])
      else .isFalse (fun hh => h (by injection hh))
    | .ok u, .ok v =>
      if h : u = v then .isTrue (by rw [h])
      else .isFalse (fun hh => h (by injection hh))
    | .error _, .ok _ => .isFalse (fun hh => Except.noConfusion hh)
    | .ok _, .error _ => .isFalse (fun hh => Except.noConfusion hh)

/-! ## Concrete pipeline fixtures used by the witnesses -/

/-- A tiny concrete matrix (the diagonal of a 2×2 grid dark). -/
def witQr : QrCode := ⟨2, fun x y => x == y, 1, 1, 0⟩

/-- A stub engine that always returns `witQr`. -/
def witEngine : QrEngine := fun _ _ _ _ _ _ => .ok witQr

/-- A stub engine that always reports exhausted capacity. -/
def failEngine : QrEngine := fun _ _ _ _ _ _ => .error .capacityExceeded

/-- A concrete well-formed option record. -/
def witOptions : GenerateQrOptions :=
  ⟨"12", .auto, .MEDIUM, .num 1, .num 40, .auto, true⟩

/-- A concrete empty-text auto-mode option record. -/
def emptyAutoOptions : GenerateQrOptions :=
  ⟨"", .auto, .MEDIUM, .num 1, .num 40, .auto, true⟩

/-- A concrete empty-text numeric-mode option record. -/
def emptyNumericOptions : GenerateQrOptions :=
  ⟨"", .numeric, .MEDIUM, .num 1, .num 40, .auto, true⟩

/-- A concrete empty-text alphanumeric-mode option record. -/
def emptyAlphanumericOptions : GenerateQrOptions :=
  ⟨"", .alphanumeric, .MEDIUM, .num 1, .num 40, .auto, true⟩

/-- A concrete empty-text byte-mode option record. -/
def emptyByteOptions : GenerateQrOptions :=
  ⟨"", .byte, .MEDIUM, .num 1, .num 40, .auto, true⟩

/-! ## String algebra helpers -/

theorem clampVersion_eq_spec (v : JSNum) :
    clampVersion v = .num (clampVersionSpec v) := by
  cases v with
  | nan => rfl
  | posInf => rfl
  | negInf => rfl
  | num q =>
    simp only [clampVersion, clampVersionSpec, jsTrunc, jsOrDefault, jsFalsy]
    by_cases h : ratTrunc q = 0
    · rw [h]
      norm_num [jsMax, jsMin]
    · have hb : ((ratTrunc q : ℚ) == 0) = false := by
        simp only [beq_eq_false_iff_ne, ne_eq]
        exact_mod_cast h
      rw [hb, if_neg h]
      simp only [Bool.false_eq_true, if_false, jsMax, jsMin, JSNum.num.injEq]
      push_cast
      rfl

theorem clampVersionSpec_mem (v : JSNum) :
    1 ≤ clampVersionSpec v ∧ clampVersionSpec v ≤ 40 := by
  cases v with
  | nan => exact ⟨le_refl 1, by norm_num [clampVersionSpec]⟩
  | posInf => exact ⟨by norm_num [clampVersionSpec], le_refl 40⟩
  | negInf => exact ⟨le_refl 1, by norm_num [clampVersionSpec]⟩
  | num q =>
    simp only [clampVersionSpec]
    by_cases h : ratTrunc q = 0
    · simp [h]
    · simp only [if_neg h]
      constructor
      · exact le_min (by norm_num) (le_max_left 1 (ratTrunc q))
      · exact min_le_left 40 _

theorem strData_empty : ("" : String).data = [] := rfl

theorem strApp_assoc (a b c : String) : a ++ b ++ c = a ++ (b ++ c) :=
  String.ext (by simp [String.data_append, List.append_assoc])

theorem strApp_empty_right (a : String) : a ++ "" = a :=
  String.ext (by simp [String.data_append, strData_empty])

theorem strApp_empty_left (a : String) : "" ++ a = a :=
  String.ext (by simp [String.data_append, strData_empty])

theorem strFoldl_append_acc (l : List String) :
    ∀ acc : String, l.foldl (· ++ ·) acc = acc ++ l.foldl (· ++ ·) "" := by
  induction l with
  | nil => intro acc; exact (strApp_empty_right acc).symm
  | cons x xs ih =>
    intro acc
    simp only [List.foldl_cons]
    rw [ih (acc ++ x), ih ("" ++ x), strApp_empty_left, strApp_assoc]

theorem strJoin_nil : String.join [] = "" := rfl

theorem strJoin_cons (a : String) (l : List String) :
    String.join (a :: l) = a ++ String.join l := by
  show (a :: l).foldl (· ++ ·) "" = a ++ l.foldl (· ++ ·) ""
  rw [List.foldl_cons, strApp_empty_left, strFoldl_append_acc]

theorem strJoin_append (l₁ l₂ : List String) :
    String.join (l₁ ++ l₂) = String.join l₁ ++ String.join l₂ := by
  induction l₁ with
  | nil => simp [strJoin_nil, strApp_empty_left]
  | cons x xs ih => simp only [List.cons_append, strJoin_cons, ih, strApp_assoc]

theorem strJoin_flatMap {α : Type} (g : α → List String) (l : List α) :
    String.join (l.flatMap g) = String.join (l.map fun a => String.join (g a)) := by
  induction l with
  | nil => rfl
  | cons x xs ih => simp only [List.flatMap_cons, List.map_cons, strJoin_append, strJoin_cons, ih]

theorem foldl_strAppend {α : Type} (f : α → String) (l : List α) (acc : String) :
    l.foldl (fun s x => s ++ f x) acc = acc ++ String.join (l.map f) := by
  induction l generalizing acc with
  | nil => simp [strJoin_nil, strApp_empty_right]
  | cons x xs ih =>
    simp only [List.foldl_cons, List.map_cons, strJoin_cons, ih, strApp_assoc]

theorem foldl_strAppend_filter {α : Type} (f : α → String) (p : α → Bool) (l : List α)
    (acc : String) :
    l.foldl (fun s x => if p x then s ++ f x else s) acc
      = acc ++ String.join ((l.filter p).map f) := by
  induction l generalizing acc with
  | nil => simp [strJoin_nil, strApp_empty_right]
  | cons x xs ih =>
    by_cases h : p x
    · simp only [List.foldl_cons, h, if_true, List.filter_cons_of_pos, List.map_cons,
        strJoin_cons, ih, strApp_assoc]
    · simp only [List.foldl_cons, h, if_false, Bool.false_eq_true,
        List.filter_cons_of_neg, ih]
      simp [h]

/-! ## Specification-side view of the renderer -/

theorem cellSubpath_space (x y : ℕ) :
    "M" ++ toString (x + SVG_BORDER) ++ "," ++ toString (y + SVG_BORDER) ++ "h1v1h-1z "
      = cellSubpath (x, y) ++ " " := by
  apply String.ext
  show ("M" ++ toString (x + 2) ++ "," ++ toString (y + 2) ++ "h1v1h-1z ").data = _
  simp only [cellSubpath, String.data_append, List.append_assoc]
  rfl

theorem toSvgPath_eq_join (qr : QrCode) :
    toSvgPath qr = String.join ((darkCells qr).map fun c => cellSubpath c ++ " ") := by
  unfold toSvgPath
  have hinner : ∀ (path : String) (y : ℕ),
      (List.range qr.size).foldl
        (fun path x =>
          if qr.getModule x y then
            path ++ ("M" ++ toString (x + SVG_BORDER) ++ "," ++
              toString (y + SVG_BORDER) ++ "h1v1h-1z ")
          else path)
        path
      = path ++ String.join
          ((((List.range qr.size).filter fun x => qr.getModule x y).map
            fun x => (x, y)).map fun c => cellSubpath c ++ " ") := by
    intro path y
    simp only [cellSubpath_space]
    rw [foldl_strAppend_filter (fun x => cellSubpath (x, y) ++ " ")
      (fun x => qr.getModule x y)]
    rw [List.map_map]
    rfl
  simp only [hinner]
  rw [foldl_strAppend
    (fun y => String.join
      ((((List.range qr.size).filter fun x => qr.getModule x y).map
        fun x => (x, y)).map fun c => cellSubpath c ++ " "))]
  rw [strApp_empty_left, darkCells, List.map_flatMap, strJoin_flatMap]

/-! ## Trimming the accumulated path -/

theorem jsTrim_data (s : String) :
    (jsTrim s).data = trimRightChars (trimLeftChars s.data) := rfl

theorem dropWhile_of_head (p : Char → Bool) (l : List Char) (a : Char)
    (h : l.head? = some a) (hp : p a = false) : l.dropWhile p = l := by
  cases l with
  | nil => rfl
  | cons x xs =>
    simp only [List.head?_cons, Option.some.injEq] at h
    subst h
    simp [List.dropWhile_cons, hp]

theorem spaceJoined_data (cmds : List String) :
    (spaceJoined cmds).data = interData (cmds.map String.data) := by
  induction cmds with
  | nil => rfl
  | cons c rest ih =>
    cases rest with
    | nil => rfl
    | cons d rest2 =>
      show (c ++ " " ++ spaceJoined (d :: rest2)).data = _
      rw [String.data_append, String.data_append, ih]
      show c.data ++ [' '] ++ _ = c.data ++ ' ' :: _
      rw [List.append_assoc]
      rfl

theorem strJoin_data (l : List String) :
    (String.join l).data = (l.map String.data).flatten := by
  induction l with
  | nil => rfl
  | cons c rest ih =>
    rw [strJoin_cons, String.data_append, ih, List.map_cons, List.flatten_cons]

theorem mapSpace_join (ls : List (List Char)) (h : ls ≠ []) :
    (ls.map (· ++ [' '])).flatten = interData ls ++ [' '] := by
  induction ls with
  | nil => exact absurd rfl h
  | cons l rest ih =>
    cases rest with
    | nil => simp [interData]
    | cons d rest2 =>
      rw [List.map_cons, List.flatten_cons, ih (by simp)]
      show _ = (l ++ ' ' :: interData (d :: rest2)) ++ [' ']
      simp [List.append_assoc]

theorem interData_ne_nil (ls : List (List Char)) (h : ls ≠ [])
    (h2 : ∀ l ∈ ls, l ≠ []) : interData ls ≠ [] := by
  cases ls with
  | nil => exact absurd rfl h
  | cons l rest =>
    cases rest with
    | nil => exact h2 l (by simp)
    | cons d rest2 =>
      show l ++ ' ' :: interData (d :: rest2) ≠ []
      simp

theorem interData_head?_nonspace (ls : List (List Char))
    (h2 : ∀ l ∈ ls, l ≠ [] ∧ (∀ a, l.head? = some a → isSpaceJS a = false)) :
    ∀ a, (interData ls).head? = some a → isSpaceJS a = false := by
  cases ls with
  | nil => intro a ha; simp [interData] at ha
  | cons l rest =>
    intro a ha
    obtain ⟨hne, hhd⟩ := h2 l (by simp)
    cases rest with
    | nil => exact hhd a ha
    | cons d rest2 =>
      have : (interData (l :: d :: rest2)).head? = l.head? := by
        show (l ++ ' ' :: interData (d :: rest2)).head? = l.head?
        cases l with
        | nil => exact absurd rfl hne
        | cons x xs => rfl
      rw [this] at ha
      exact hhd a ha

theorem interData_getLast?_nonspace (ls : List (List Char))
    (h2 : ∀ l ∈ ls, l ≠ [] ∧ (∀ a, l.getLast? = some a → isSpaceJS a = false)) :
    ∀ a, (interData ls).getLast? = some a → isSpaceJS a = false := by
  induction ls with
  | nil => intro a ha; simp [interData] at ha
  | cons l rest ih =>
    intro a ha
    cases rest with
    | nil => exact (h2 l (by simp)).2 a ha
    | cons d rest2 =>
      have hmid : interData (d :: rest2) ≠ [] :=
        interData_ne_nil _ (by simp) (fun x hx => (h2 x (by simp [hx])).1)
      have : (interData (l :: d :: rest2)).getLast? = (interData (d :: rest2)).getLast? := by
        show (l ++ ' ' :: interData (d :: rest2)).getLast? = _
        rw [List.getLast?_append_of_ne_nil l (by simp)]
        show ([' '] ++ interData (d :: rest2)).getLast? = _
        rw [List.getLast?_append_of_ne_nil [' '] hmid]
      rw [this] at ha
      exact ih (fun x hx => h2 x (by simp [hx])) a ha

theorem trimR_append_space (X : List Char)
    (h : ∀ a, X.getLast? = some a → isSpaceJS a = false) :
    trimRightChars (X ++ [' ']) = X := by
  unfold trimRightChars
  have : (X ++ [' ']).reverse = ' ' :: X.reverse := by simp
  rw [this, List.dropWhile_cons]
  have hsp : isSpaceJS ' ' = true := by decide
  rw [if_pos hsp]
  cases hX : X.reverse with
  | nil =>
    have : X = [] := by simpa using congrArg List.reverse hX
    simp [this]
  | cons a as =>
    have ha : X.getLast? = some a := by
      rw [← List.head?_reverse, hX]
      rfl
    have := h a ha
    rw [← hX, dropWhile_of_head isSpaceJS X.reverse a (by rw [hX]; rfl) this,
      List.reverse_reverse]

/-- Trimming the join of commands-with-trailing-space is exactly the
space-joined command sequence, provided no command is empty or has
whitespace at either edge. -/
theorem jsTrim_join (cmds : List String)
    (h : ∀ c ∈ cmds, c.data ≠ [] ∧
      (∀ a, c.data.head? = some a → isSpaceJS a = false) ∧
      (∀ a, c.data.getLast? = some a → isSpaceJS a = false)) :
    jsTrim (String.join (cmds.map (· ++ " "))) = spaceJoined cmds := by
  cases hc : cmds with
  | nil => rfl
  | cons c rest =>
    subst hc
    apply String.ext
    rw [jsTrim_data, spaceJoined_data, strJoin_data, List.map_map]
    have hdata : ((c :: rest).map (String.data ∘ (· ++ " "))) =
        (((c :: rest).map String.data).map (· ++ [' '])) := by
      rw [List.map_map]
      apply List.map_congr_left
      intro x _
      show (x ++ " ").data = x.data ++ [' ']
      rw [String.data_append]
    rw [hdata, mapSpace_join _ (by simp)]
    set ls := (c :: rest).map String.data with hls
    have hls2 : ∀ l ∈ ls, l ≠ [] ∧
        (∀ a, l.head? = some a → isSpaceJS a = false) ∧
        (∀ a, l.getLast? = some a → isSpaceJS a = false) := by
      intro l hl
      rw [hls] at hl
      obtain ⟨x, hx, rfl⟩ := List.mem_map.mp hl
      exact h x hx
    have hne : interData ls ≠ [] :=
      interData_ne_nil ls (by simp [hls]) (fun l hl => (hls2 l hl).1)
    have hhd : ∀ a, (interData ls ++ [' ']).head? = some a → isSpaceJS a = false := by
      intro a ha
      cases hI : interData ls with
      | nil => exact absurd hI hne
      | cons b bs =>
        rw [hI] at ha
        simp only [List.cons_append, List.head?_cons, Option.some.injEq] at ha
        rw [← ha]
        exact interData_head?_nonspace ls (fun l hl => ⟨(hls2 l hl).1, (hls2 l hl).2.1⟩) b
          (by rw [hI]; rfl)
    unfold trimLeftChars
    cases hI : (interData ls ++ [' ']) with
    | nil => simp at hI
    | cons b bs =>
      rw [← hI, dropWhile_of_head isSpaceJS _ b (by rw [hI]; rfl)
        (hhd b (by rw [hI]; rfl))]
      exact trimR_append_space _
        (interData_getLast?_nonspace ls (fun l hl => ⟨(hls2 l hl).1, (hls2 l hl).2.2⟩))

/-! ## Edge properties of the per-cell subpath commands -/

theorem cellSubpath_data_head (c : ℕ × ℕ) : (cellSubpath c).data.head? = some 'M' := by
  have h : (cellSubpath c).data =
      "M".data ++ (toString (c.1 + 2)).data ++ ",".data ++ (toString (c.2 + 2)).data ++
        "h1v1h-1z".data := by
    simp only [cellSubpath, String.data_append]
  rw [h]
  rfl

theorem cellSubpath_data_getLast (c : ℕ × ℕ) :
    (cellSubpath c).data.getLast? = some 'z' := by
  have h : (cellSubpath c).data =
      ("M" ++ toString (c.1 + 2) ++ "," ++ toString (c.2 + 2)).data ++ "h1v1h-1z".data := by
    simp only [cellSubpath, String.data_append]
  rw [h, List.getLast?_append_of_ne_nil _ (by decide)]
  decide

theorem cellSubpath_data_ne_nil (c : ℕ × ℕ) : (cellSubpath c).data ≠ [] := by
  intro h
  have := cellSubpath_data_head c
  rw [h] at this
  exact Option.noConfusion this

/-- The `d` attribute of the rendered document is exactly the space-joined
row-major sequence of per-dark-cell subpaths. -/
theorem toSvg_d_attribute (qr : QrCode) :
    jsTrim (toSvgPath qr) = spaceJoined ((darkCells qr).map cellSubpath) := by
  rw [toSvgPath_eq_join]
  have hm : (darkCells qr).map (fun c => cellSubpath c ++ " ")
      = ((darkCells qr).map cellSubpath).map (· ++ " ") := by
    rw [List.map_map]
    rfl
  rw [hm]
  apply jsTrim_join
  intro c hc
  obtain ⟨d, _, rfl⟩ := List.mem_map.mp hc
  refine ⟨cellSubpath_data_ne_nil d, ?_, ?_⟩
  · intro a ha
    rw [cellSubpath_data_head d] at ha
    cases ha
    decide
  · intro a ha
    rw [cellSubpath_data_getLast d] at ha
    cases ha
    decide

/-- C1: the rendered document declares `viewBox="0 0 (size+4) (size+4)"`
(border 2 on every edge), contains one full-canvas light background
rectangle, and one dark path whose `d` attribute is the space-joined
row-major (`y` outer, `x` inner) sequence of independent closed
unit-square subpaths `M(x+2),(y+2)h1v1h-1z`, one per dark cell, with
nothing emitted for light cells and no merging of adjacent dark cells. -/
theorem toSvg_viewBox_and_subpaths (qr : QrCode) :
    toSvg qr =
      "<svg xmlns=\"http://www.w3.org/2000/svg\" viewBox=\"0 0 " ++
        toString (qr.size + 4) ++ " " ++ toString (qr.size + 4) ++
        "\" shape-rendering=\"crispEdges\"><rect width=\"100%\" height=\"100%\" fill=\"#fff\"/><path d=\"" ++
        spaceJoined ((darkCells qr).map cellSubpath) ++
        "\" fill=\"#000\"/></svg>" := by
  have h : toSvg qr =
      "<svg xmlns=\"http://www.w3.org/2000/svg\" viewBox=\"0 0 " ++
        toString (qr.size + 4) ++ " " ++ toString (qr.size + 4) ++
        "\" shape-rendering=\"crispEdges\"><rect width=\"100%\" height=\"100%\" fill=\"#fff\"/><path d=\"" ++
        jsTrim (toSvgPath qr) ++ "\" fill=\"#000\"/></svg>" := rfl
  rw [h, toSvg_d_attribute]

/-! ## Dark-module counting (claim C2) -/

theorem foldl_count {α : Type} (p : α → Bool) (l : List α) (acc : ℕ) :
    l.foldl (fun a x => if p x then a + 1 else a) acc = acc + (l.filter p).length := by
  induction l generalizing acc with
  | nil => simp
  | cons x xs ih =>
    by_cases h : p x
    · simp [List.foldl_cons, h, ih, Nat.add_assoc, Nat.add_comm 1]
    · simp [List.foldl_cons, h, ih]

theorem foldl_add_lengths {α : Type} (g : α → ℕ) (l : List α) (acc : ℕ) :
    l.foldl (fun a y => a + g y) acc = acc + (l.map g).sum := by
  induction l generalizing acc with
  | nil => simp
  | cons x xs ih => simp [List.foldl_cons, ih, Nat.add_assoc]

/-- `countDarkModules` counts exactly the cells listed by `darkCells`. -/
theorem countDarkModules_eq_darkCells_length (qr : QrCode) :
    countDarkModules qr = (darkCells qr).length := by
  unfold countDarkModules darkCells
  have hinner : ∀ (acc : ℕ) (y : ℕ),
      (List.range qr.size).foldl (fun dark x => if qr.getModule x y then dark + 1 else dark) acc
        = acc + (((List.range qr.size).filter fun x => qr.getModule x y).map
            fun x => (x, y)).length := by
    intro acc y
    rw [foldl_count (fun x => qr.getModule x y), List.length_map]
  simp only [hinner]
  rw [foldl_add_lengths
    (fun y => (((List.range qr.size).filter fun x => qr.getModule x y).map
      fun x => (x, y)).length)]
  rw [List.length_flatMap]
  simp [Function.comp_def]

/-- C2: for every successful run of `generateQrCode`, the `darkModules`
metadata field (computed via `countDarkModules`) equals the number of
dark-cell unit-square subpaths emitted by `toSvg` for the same matrix. -/
theorem darkModules_eq_svg_subpath_count (eng : QrEngine) (o : GenerateQrOptions)
    (res : GenerateQrResult) (h : generateQrCode eng o = Except.ok res) :
    ∃ qr : QrCode, res.svg = toSvg qr ∧
      res.metadata.darkModules = ((darkCells qr).map cellSubpath).length := by
  unfold generateQrCode at h
  by_cases hgt : jsGt (clampVersion o.minVersion) (clampVersion o.maxVersion) = true
  · rw [if_pos hgt] at h
    exact Except.noConfusion h
  · rw [if_neg hgt] at h
    cases hseg : buildSegments o.text o.mode with
    | error e =>
      rw [hseg] at h
      cases e
      exact Except.noConfusion h
    | ok segments =>
      rw [hseg] at h
      dsimp only at h
      cases heng : eng segments o.ecl (clampVersion o.minVersion) (clampVersion o.maxVersion)
          (maskToNumber o.mask) o.boostEcl with
      | error e =>
        rw [heng] at h
        exact Except.noConfusion h
      | ok qr =>
        rw [heng] at h
        injection h with h2
        refine ⟨qr, ?_, ?_⟩
        · rw [← h2]
        · rw [← h2]
          show countDarkModules qr = _
          rw [List.length_map, countDarkModules_eq_darkCells_length]

set_option maxRecDepth 100000 in
/-- Witness for C2 at a concrete engine, option record and result. -/
theorem darkModules_eq_svg_subpath_count_witness :
    ∃ qr : QrCode,
      (GenerateQrResult.mk (toSvg witQr)
        ⟨.auto, .numeric, .MEDIUM, some .MEDIUM, 1, 2, 0, 1, 2⟩).svg = toSvg qr ∧
      (GenerateQrResult.mk (toSvg witQr)
        ⟨.auto, .numeric, .MEDIUM, some .MEDIUM, 1, 2, 0, 1, 2⟩).metadata.darkModules
        = ((darkCells qr).map cellSubpath).length :=
  darkModules_eq_svg_subpath_count witEngine witOptions _ (by decide)

/-! ## Claim C3: the inverted-version-range error -/

theorem jsGt_clamp (a b : JSNum) :
    jsGt (clampVersion a) (clampVersion b)
      = decide (clampVersionSpec b < clampVersionSpec a) := by
  rw [clampVersion_eq_spec a, clampVersion_eq_spec b]
  show decide ((clampVersionSpec b : ℚ) < (clampVersionSpec a : ℚ)) = _
  exact decide_eq_decide.mpr (by exact_mod_cast Iff.rfl)

/-- C3: `generateQrCode` fails with the invalid-range error exactly when the
clamped minimum version exceeds the clamped maximum; when it does not, that
error is never produced (whatever the engine does). -/
theorem generateQrCode_invalidRange_iff (eng : QrEngine) (o : GenerateQrOptions) :
    (clampVersionSpec o.maxVersion < clampVersionSpec o.minVersion →
      generateQrCode eng o = Except.error QrGenError.invalidRange) ∧
    (clampVersionSpec o.minVersion ≤ clampVersionSpec o.maxVersion →
      generateQrCode eng o ≠ Except.error QrGenError.invalidRange) := by
  constructor
  · intro hlt
    unfold generateQrCode
    rw [if_pos (by rw [jsGt_clamp]; exact decide_eq_true hlt)]
  · intro hle
    unfold generateQrCode
    rw [if_neg (by rw [jsGt_clamp]; simp [not_lt.mpr hle])]
    cases hseg : buildSegments o.text o.mode with
    | error e =>
      cases e
      intro hcontra
      exact QrGenError.noConfusion (Except.error.inj hcontra)
    | ok segments =>
      dsimp only
      cases heng : eng segments o.ecl (clampVersion o.minVersion) (clampVersion o.maxVersion)
          (maskToNumber o.mask) o.boostEcl with
      | error e =>
        intro hcontra
        exact QrGenError.noConfusion (Except.error.inj hcontra)
      | ok qr =>
        intro hcontra
        exact Except.noConfusion hcontra

/-- Witness for C3: a concrete inverted range fails with `invalidRange`; a
concrete well-ordered range never produces that error. -/
theorem generateQrCode_invalidRange_iff_witness :
    generateQrCode witEngine ⟨"", .auto, .MEDIUM, .num 5, .num 3, .auto, true⟩
        = Except.error QrGenError.invalidRange ∧
      generateQrCode witEngine witOptions ≠ Except.error QrGenError.invalidRange :=
  ⟨(generateQrCode_invalidRange_iff witEngine _).1 (by decide),
    (generateQrCode_invalidRange_iff witEngine witOptions).2 (by decide)⟩

/-! ## Claim C5: version normalisation -/

/-- C5 counterexample: the claim says a non-finite input is substituted by
1 before clamping, but `clampVersion(+Infinity)` is 40, not 1 (JS
`Math.trunc` preserves the infinity, which is truthy, and the clamp then
caps it at 40). -/
theorem clampVersion_posInf_cex :
    clampVersion JSNum.posInf = JSNum.num 40 ∧ (40 : ℚ) ≠ 1 :=
  ⟨rfl, by norm_num⟩

/-- C5 (amended): `clampVersion` truncates toward zero, substitutes 1 when
the truncated value is 0 or NaN, and clamps into `[1,40]` — so negative
values and `-Infinity` end at 1 while `+Infinity` ends at 40 — and, being
total, never raises an error: the result is always a finite integer in
`[1,40]`. -/
theorem clampVersion_normalises (v : JSNum) :
    clampVersion v = JSNum.num (clampVersionSpec v) ∧
      1 ≤ clampVersionSpec v ∧ clampVersionSpec v ≤ 40 :=
  ⟨clampVersion_eq_spec v, clampVersionSpec_mem v⟩

/-! ## Claim C6: the mode classifier -/

theorem detectUsedMode_eq (segs : List QrSegment) :
    detectUsedMode segs =
      if segs.length = 0 then .none
      else
        match usedFold [] segs with
        | [single] => single
        | _ => .mixed := rfl

theorem segUsedMode_ne_none (s : QrSegment) : segUsedMode s ≠ QrModeUsed.none := by
  unfold segUsedMode MODE_BY_BITS
  split_ifs <;> simp [Option.getD]

theorem mem_usedFold (segs : List QrSegment) :
    ∀ (acc : List QrModeUsed) (u : QrModeUsed),
      u ∈ usedFold acc segs ↔ u ∈ acc ∨ ∃ s ∈ segs, segUsedMode s = u := by
  induction segs with
  | nil => intro acc u; simp [usedFold]
  | cons s rest ih =>
    intro acc u
    show u ∈ usedFold (if acc.contains (segUsedMode s) then acc
        else acc ++ [segUsedMode s]) rest ↔ _
    by_cases hc : acc.contains (segUsedMode s)
    · rw [if_pos hc, ih]
      constructor
      · rintro (h | h)
        · exact Or.inl h
        · exact Or.inr (by obtain ⟨x, hx, hxe⟩ := h; exact ⟨x, by simp [hx], hxe⟩)
      · rintro (h | ⟨x, hx, hxe⟩)
        · exact Or.inl h
        · rcases List.mem_cons.mp hx with rfl | hx2
          · exact Or.inl (by rw [hxe] at hc; simpa using hc)
          · exact Or.inr ⟨x, hx2, hxe⟩
    · rw [if_neg hc, ih]
      constructor
      · rintro (h | h)
        · rcases List.mem_append.mp h with h2 | h2
          · exact Or.inl h2
          · exact Or.inr ⟨s, by simp, (List.mem_singleton.mp h2).symm⟩
        · obtain ⟨x, hx, hxe⟩ := h
          exact Or.inr ⟨x, by simp [hx], hxe⟩
      · rintro (h | ⟨x, hx, hxe⟩)
        · exact Or.inl (List.mem_append.mpr (Or.inl h))
        · rcases List.mem_cons.mp hx with rfl | hx2
          · exact Or.inl (List.mem_append.mpr (Or.inr (by simp [hxe])))
          · exact Or.inr ⟨x, hx2, hxe⟩

theorem usedFold_const (u : QrModeUsed) (segs : List QrSegment)
    (h : ∀ s ∈ segs, segUsedMode s = u) : usedFold [u] segs = [u] := by
  induction segs with
  | nil => rfl
  | cons s rest ih =>
    show usedFold (if List.contains [u] (segUsedMode s) then [u]
        else [u] ++ [segUsedMode s]) rest = [u]
    rw [h s (by simp)]
    simp only [List.contains_cons, beq_self_eq_true, Bool.true_or, if_true]
    exact ih (fun x hx => h x (by simp [hx]))

theorem usedFold_cons (s : QrSegment) (rest : List QrSegment) :
    usedFold [] (s :: rest) = usedFold [segUsedMode s] rest := by
  show usedFold (if List.contains [] (segUsedMode s) then []
      else [] ++ [segUsedMode s]) rest = _
  rfl

theorem detect_of_two_mem (segs : List QrSegment) (u v : QrModeUsed)
    (hu : u ∈ usedFold [] segs) (hv : v ∈ usedFold [] segs) (hne : u ≠ v)
    (hsegs : segs ≠ []) : detectUsedMode segs = QrModeUsed.mixed := by
  rw [detectUsedMode_eq, if_neg (by simpa using hsegs)]
  cases hUF : usedFold [] segs with
  | nil => rw [hUF] at hu
  | cons x rest =>
    cases rest with
    | nil =>
      rw [hUF] at hu hv
      rw [List.mem_singleton.mp hu, List.mem_singleton.mp hv] at hne
      exact absurd rfl hne
    | cons y rest2 => rfl

theorem detect_of_mixed_mem (segs : List QrSegment)
    (h : QrModeUsed.mixed ∈ usedFold [] segs) (hsegs : segs ≠ []) :
    detectUsedMode segs = QrModeUsed.mixed := by
  rw [detectUsedMode_eq, if_neg (by simpa using hsegs)]
  cases hUF : usedFold [] segs with
  | nil => rw [hUF] at h
  | cons x rest =>
    cases rest with
    | nil =>
      rw [hUF] at h
      exact (List.mem_singleton.mp h).symm
    | cons y rest2 => rfl

theorem segUsedMode_eq_of_bits_ne (s₁ s₂ : QrSegment)
    (hbits : s₁.mode.modeBits ≠ s₂.mode.modeBits)
    (heq : segUsedMode s₁ = segUsedMode s₂) : segUsedMode s₁ = QrModeUsed.mixed := by
  unfold segUsedMode MODE_BY_BITS at heq ⊢
  split_ifs at heq ⊢ <;> simp_all [Option.getD]

/-- C6: `detectUsedMode` reports `none` exactly for the empty segment list;
it reports the common mode when every segment carries the same one of
numeric/alphanumeric/byte; it reports `mixed` whenever two segments carry
different modes; and consequently, under mode `auto`, the used mode is
`none` iff the input text is empty. -/
theorem detectUsedMode_classification :
    (∀ segs : List QrSegment, detectUsedMode segs = QrModeUsed.none ↔ segs = []) ∧
    (∀ (segs : List QrSegment) (u : QrModeUsed), segs ≠ [] →
      (u = .numeric ∨ u = .alphanumeric ∨ u = .byte) →
      (∀ s ∈ segs, segUsedMode s = u) → detectUsedMode segs = u) ∧
    (∀ (segs : List QrSegment) (s₁ s₂ : QrSegment), s₁ ∈ segs → s₂ ∈ segs →
      s₁.mode.modeBits ≠ s₂.mode.modeBits → detectUsedMode segs = QrModeUsed.mixed) ∧
    (∀ t : String, detectUsedMode (makeSegments t) = QrModeUsed.none ↔ t = "") := by
  have hnone : ∀ segs : List QrSegment, detectUsedMode segs = QrModeUsed.none ↔ segs = [] := by
    intro segs
    constructor
    · intro h
      by_contra hne
      rw [detectUsedMode_eq, if_neg (by simpa using hne)] at h
      cases hUF : usedFold [] segs with
      | nil =>
        cases segs with
        | nil => exact hne rfl
        | cons s rest =>
          have : segUsedMode s ∈ usedFold [] (s :: rest) :=
            (mem_usedFold _ _ _).mpr (Or.inr ⟨s, by simp, rfl⟩)
          rw [hUF] at this
          exact absurd this (by simp)
      | cons x rest =>
        rw [hUF] at h
        cases rest with
        | nil =>
          have : x ∈ usedFold [] segs := by rw [hUF]; simp
          obtain ⟨s, _, hs⟩ := ((mem_usedFold _ _ _).mp this).resolve_left (by simp)
          exact segUsedMode_ne_none s (by rw [hs]; exact h)
        | cons y rest2 => exact QrModeUsed.noConfusion h
    · intro h
      subst h
      rfl
  refine ⟨hnone, ?_, ?_, ?_⟩
  · intro segs u hne _ hall
    cases segs with
    | nil => exact absurd rfl hne
    | cons s rest =>
      rw [detectUsedMode_eq, if_neg (by simp), usedFold_cons, hall s (by simp),
        usedFold_const u rest (fun x hx => hall x (by simp [hx]))]
  · intro segs s₁ s₂ h₁ h₂ hbits
    have hsegs : segs ≠ [] := by
      intro h
      rw [h] at h₁
      exact absurd h₁ (by simp)
    by_cases heq : segUsedMode s₁ = segUsedMode s₂
    · have hmix := segUsedMode_eq_of_bits_ne s₁ s₂ hbits heq
      exact detect_of_mixed_mem segs
        (by
          rw [← hmix]
          exact (mem_usedFold _ _ _).mpr (Or.inr ⟨s₁, h₁, rfl⟩))
        hsegs
    · exact detect_of_two_mem segs (segUsedMode s₁) (segUsedMode s₂)
        ((mem_usedFold _ _ _).mpr (Or.inr ⟨s₁, h₁, rfl⟩))
        ((mem_usedFold _ _ _).mpr (Or.inr ⟨s₂, h₂, rfl⟩))
        heq hsegs
  · intro t
    rw [hnone]
    unfold makeSegments
    by_cases h : t = ""
    · simp [h]
    · rw [if_neg h]
      split_ifs <;> simp [h]

/-- Witness for C6's hypotheses at concrete segment lists and texts. -/
theorem detectUsedMode_classification_witness :
    detectUsedMode [⟨⟨2⟩, 3⟩, ⟨⟨2⟩, 1⟩] = QrModeUsed.alphanumeric ∧
    detectUsedMode [⟨⟨1⟩, 3⟩, ⟨⟨4⟩, 1⟩] = QrModeUsed.mixed ∧
    (detectUsedMode (makeSegments "") = QrModeUsed.none ↔ ("" : String) = "") :=
  ⟨detectUsedMode_classification.2.1 [⟨⟨2⟩, 3⟩, ⟨⟨2⟩, 1⟩] .alphanumeric (by simp)
      (Or.inr (Or.inl rfl)) (by decide),
    detectUsedMode_classification.2.2.1 [⟨⟨1⟩, 3⟩, ⟨⟨4⟩, 1⟩] ⟨⟨1⟩, 3⟩ ⟨⟨4⟩, 1⟩
      (by simp) (by simp) (by decide),
    detectUsedMode_classification.2.2.2 ""⟩

/-! ## Claim C4: the empty input -/

set_option maxRecDepth 100000 in
/-- C4 counterexample: the claim fails for the explicit modes — for mode
`numeric` the empty string builds ONE (empty numeric) segment, not zero,
and the pipeline reports `segmentCount = 1` and `usedMode = "numeric"`,
not 0 and `"none"`. -/
theorem buildSegments_empty_numeric_cex :
    (buildSegments "" QrMode.numeric).map List.length = Except.ok 1 ∧
    (generateQrCode witEngine emptyNumericOptions).map
        (fun r => (r.metadata.segmentCount, r.metadata.usedMode))
      = Except.ok (1, QrModeUsed.numeric) ∧
    (1 : ℕ) ≠ 0 := by
  refine ⟨by decide, by decide, by decide⟩

/-- Run lemma: a successful pipeline run reports the length and the
detected mode of exactly the segments that were built for it. -/
theorem generateQrCode_ok_metadata (eng : QrEngine) (o : GenerateQrOptions)
    (res : GenerateQrResult) (segs : List QrSegment)
    (hb : buildSegments o.text o.mode = Except.ok segs)
    (h : generateQrCode eng o = Except.ok res) :
    res.metadata.segmentCount = segs.length ∧
      res.metadata.usedMode = detectUsedMode segs := by
  unfold generateQrCode at h
  by_cases hgt : jsGt (clampVersion o.minVersion) (clampVersion o.maxVersion) = true
  · rw [if_pos hgt] at h
    exact Except.noConfusion h
  · rw [if_neg hgt, hb] at h
    dsimp only at h
    cases heng : eng segs o.ecl (clampVersion o.minVersion) (clampVersion o.maxVersion)
        (maskToNumber o.mask) o.boostEcl with
    | error e =>
      rw [heng] at h
      exact Except.noConfusion h
    | ok qr =>
      rw [heng] at h
      injection h with h2
      rw [← h2]
      exact ⟨rfl, rfl⟩

/-- C4 (amended): the empty string yields zero segments only under mode
`auto` — there encoding still succeeds (whenever the engine accepts the
empty segment list) with `segmentCount = 0` and `usedMode = none` — while
each explicit mode builds exactly one empty segment of its own kind, so a
successful run reports `segmentCount = 1` and `usedMode` equal to that
mode. -/
theorem buildSegments_empty_behaviour :
    (buildSegments "" QrMode.auto = Except.ok []) ∧
    (buildSegments "" QrMode.numeric = Except.ok [⟨⟨1⟩, 0⟩] ∧
      buildSegments "" QrMode.alphanumeric = Except.ok [⟨⟨2⟩, 0⟩] ∧
      buildSegments "" QrMode.byte = Except.ok [⟨⟨4⟩, 0⟩]) ∧
    (∀ (eng : QrEngine) (o : GenerateQrOptions) (res : GenerateQrResult),
      o.text = "" → o.mode = QrMode.auto → generateQrCode eng o = Except.ok res →
      res.metadata.segmentCount = 0 ∧ res.metadata.usedMode = QrModeUsed.none) ∧
    (∀ (eng : QrEngine) (o : GenerateQrOptions) (res : GenerateQrResult),
      o.text = "" → o.mode = QrMode.numeric → generateQrCode eng o = Except.ok res →
      res.metadata.segmentCount = 1 ∧ res.metadata.usedMode = QrModeUsed.numeric) ∧
    (∀ (eng : QrEngine) (o : GenerateQrOptions) (res : GenerateQrResult),
      o.text = "" → o.mode = QrMode.alphanumeric → generateQrCode eng o = Except.ok res →
      res.metadata.segmentCount = 1 ∧ res.metadata.usedMode = QrModeUsed.alphanumeric) ∧
    (∀ (eng : QrEngine) (o : GenerateQrOptions) (res : GenerateQrResult),
      o.text = "" → o.mode = QrMode.byte → generateQrCode eng o = Except.ok res →
      res.metadata.segmentCount = 1 ∧ res.metadata.usedMode = QrModeUsed.byte) ∧
    (∀ (eng : QrEngine) (o : GenerateQrOptions) (qr : QrCode),
      o.text = "" → o.mode = QrMode.auto →
      ¬ clampVersionSpec o.maxVersion < clampVersionSpec o.minVersion →
      eng [] o.ecl (clampVersion o.minVersion) (clampVersion o.maxVersion)
          (maskToNumber o.mask) o.boostEcl = Except.ok qr →
      ∃ res, generateQrCode eng o = Except.ok res) := by
  have hbuild : buildSegments "" QrMode.auto = Except.ok [] := rfl
  have hnum : buildSegments "" QrMode.numeric = Except.ok [⟨⟨1⟩, 0⟩] := by decide
  have halpha : buildSegments "" QrMode.alphanumeric = Except.ok [⟨⟨2⟩, 0⟩] := by decide
  have hbyte : buildSegments "" QrMode.byte = Except.ok [⟨⟨4⟩, 0⟩] := by decide
  refine ⟨hbuild, ⟨hnum, halpha, hbyte⟩, ?_, ?_, ?_, ?_, ?_⟩
  · intro eng o res ht hm h
    have hmeta := generateQrCode_ok_metadata eng o res []
      (by rw [ht, hm]; exact hbuild) h
    exact ⟨hmeta.1, hmeta.2⟩
  · intro eng o res ht hm h
    have hmeta := generateQrCode_ok_metadata eng o res [⟨⟨1⟩, 0⟩]
      (by rw [ht, hm]; exact hnum) h
    exact ⟨hmeta.1, hmeta.2.trans (by decide)⟩
  · intro eng o res ht hm h
    have hmeta := generateQrCode_ok_metadata eng o res [⟨⟨2⟩, 0⟩]
      (by rw [ht, hm]; exact halpha) h
    exact ⟨hmeta.1, hmeta.2.trans (by decide)⟩
  · intro eng o res ht hm h
    have hmeta := generateQrCode_ok_metadata eng o res [⟨⟨4⟩, 0⟩]
      (by rw [ht, hm]; exact hbyte) h
    exact ⟨hmeta.1, hmeta.2.trans (by decide)⟩
  · intro eng o qr ht hm hle heng
    have hb : buildSegments o.text o.mode = Except.ok [] := by rw [ht, hm]; exact hbuild
    have hrun : generateQrCode eng o = Except.ok
        ⟨toSvg qr, ⟨o.mode, detectUsedMode [], o.ecl, ECL_BY_ORDINAL qr.eccOrdinal,
          qr.version, qr.size, qr.mask, List.length ([] : List QrSegment),
          countDarkModules qr⟩⟩ := by
      unfold generateQrCode
      rw [if_neg (by rw [jsGt_clamp]; simpa using hle), hb]
      dsimp only
      rw [heng]
    exact ⟨_, hrun⟩

set_option maxRecDepth 100000 in
/-- Witness for C4 (amended) at concrete inputs: the `byte` clause, the
metadata clause at a concrete successful run, and the success clause. -/
theorem buildSegments_empty_behaviour_witness :
    ((GenerateQrResult.mk (toSvg witQr)
        ⟨.auto, .none, .MEDIUM, some .MEDIUM, 1, 2, 0, 0, 2⟩).metadata.segmentCount = 0 ∧
      (GenerateQrResult.mk (toSvg witQr)
        ⟨.auto, .none, .MEDIUM, some .MEDIUM, 1, 2, 0, 0, 2⟩).metadata.usedMode
          = QrModeUsed.none) ∧
    ((GenerateQrResult.mk (toSvg witQr)
        ⟨.numeric, .numeric, .MEDIUM, some .MEDIUM, 1, 2, 0, 1, 2⟩).metadata.segmentCount = 1 ∧
      (GenerateQrResult.mk (toSvg witQr)
        ⟨.numeric, .numeric, .MEDIUM, some .MEDIUM, 1, 2, 0, 1, 2⟩).metadata.usedMode
          = QrModeUsed.numeric) ∧
    ((GenerateQrResult.mk (toSvg witQr)
        ⟨.alphanumeric, .alphanumeric, .MEDIUM, some .MEDIUM, 1, 2, 0, 1, 2⟩).metadata.segmentCount = 1 ∧
      (GenerateQrResult.mk (toSvg witQr)
        ⟨.alphanumeric, .alphanumeric, .MEDIUM, some .MEDIUM, 1, 2, 0, 1, 2⟩).metadata.usedMode
          = QrModeUsed.alphanumeric) ∧
    ((GenerateQrResult.mk (toSvg witQr)
        ⟨.byte, .byte, .MEDIUM, some .MEDIUM, 1, 2, 0, 1, 2⟩).metadata.segmentCount = 1 ∧
      (GenerateQrResult.mk (toSvg witQr)
        ⟨.byte, .byte, .MEDIUM, some .MEDIUM, 1, 2, 0, 1, 2⟩).metadata.usedMode
          = QrModeUsed.byte) ∧
    (∃ res, generateQrCode witEngine emptyAutoOptions = Except.ok res) :=
  ⟨buildSegments_empty_behaviour.2.2.1 witEngine emptyAutoOptions _ rfl rfl (by decide),
    buildSegments_empty_behaviour.2.2.2.1 witEngine emptyNumericOptions _ rfl rfl (by decide),
    buildSegments_empty_behaviour.2.2.2.2.1 witEngine emptyAlphanumericOptions _ rfl rfl
      (by decide),
    buildSegments_empty_behaviour.2.2.2.2.2.1 witEngine emptyByteOptions _ rfl rfl
      (by decide),
    buildSegments_empty_behaviour.2.2.2.2.2.2 witEngine emptyAutoOptions witQr rfl rfl
      (by decide) rfl⟩

/-! ## Claim C9: object-URL lifecycle of the export -/

theorem getLast?_append_singleton {α : Type} (l : List α) (a : α) :
    (l ++ [a]).getLast? = some a := by
  rw [List.getLast?_append_of_ne_nil l (by simp)]
  rfl

/-- C9: on every execution of the PNG export — successful save, image
decode failure, or canvas-context failure — the object URL backing the
decode is created once and released exactly once, the release being the
final action before the call completes. -/
theorem saveSvgAsPng_releases_url_once (env : BrowserEnv) (svg filename : String) :
    ((saveSvgAsPng env svg filename).2.count ExportEvent.revokeObjectUrl = 1) ∧
    ((saveSvgAsPng env svg filename).2.count ExportEvent.createObjectUrl = 1) ∧
    ((saveSvgAsPng env svg filename).2.getLast? = some ExportEvent.revokeObjectUrl) ∧
    ((saveSvgAsPng env svg filename).2.head? = some ExportEvent.createObjectUrl) := by
  rcases env with ⟨d, c⟩
  cases d <;> cases c <;>
    refine ⟨?_, ?_, ?_, ?_⟩ <;>
    simp [saveSvgAsPng, saveSvgAsPngBody, List.count_cons, List.count_append,
      getLast?_append_singleton]

/-! ## Claim C8: determinism and instruction order -/

theorem pairwise_flatMap_of {α β : Type} (R : β → β → Prop) (f : α → List β)
    (l : List α) (h1 : ∀ a ∈ l, (f a).Pairwise R)
    (h2 : l.Pairwise (fun a b => ∀ x ∈ f a, ∀ y ∈ f b, R x y)) :
    (l.flatMap f).Pairwise R := by
  induction l with
  | nil => simp
  | cons a as ih =>
    rw [List.flatMap_cons, List.pairwise_append]
    refine ⟨h1 a (by simp), ih (fun x hx => h1 x (by simp [hx])) (List.Pairwise.sublist
      (by exact List.sublist_cons_self a as) h2), ?_⟩
    intro x hx y hy
    obtain ⟨b, hb, hyb⟩ := List.mem_flatMap.mp hy
    exact (List.pairwise_cons.mp h2).1 b hb x hx y hyb

theorem mem_darkCells (qr : QrCode) (c : ℕ × ℕ) :
    c ∈ darkCells qr ↔
      c.1 < qr.size ∧ c.2 < qr.size ∧ qr.getModule c.1 c.2 = true := by
  unfold darkCells
  rw [List.mem_flatMap]
  constructor
  · rintro ⟨y, hy, hc⟩
    obtain ⟨x, hx, rfl⟩ := List.mem_map.mp hc
    obtain ⟨hxr, hxp⟩ := List.mem_filter.mp hx
    exact ⟨List.mem_range.mp hxr, List.mem_range.mp hy, hxp⟩
  · rintro ⟨h1, h2, h3⟩
    exact ⟨c.2, List.mem_range.mpr h2,
      List.mem_map.mpr ⟨c.1,
        List.mem_filter.mpr ⟨List.mem_range.mpr h1, h3⟩, rfl⟩⟩

theorem darkCells_pairwise (qr : QrCode) : (darkCells qr).Pairwise rowMajorLt := by
  unfold darkCells
  apply pairwise_flatMap_of
  · intro y _
    rw [List.pairwise_map]
    apply List.Pairwise.filter
    exact (List.pairwise_lt_range qr.size).imp (fun h => Or.inr ⟨rfl, h⟩)
  · apply (List.pairwise_lt_range qr.size).imp
    intro a b hab x hx y hy
    obtain ⟨xa, _, rfl⟩ := List.mem_map.mp hx
    obtain ⟨yb, _, rfl⟩ := List.mem_map.mp hy
    exact Or.inl hab

/-- C8: `generateQrCode` is deterministic — equal option records (with the
same engine) produce identical results, hence byte-identical documents and
identical metadata — and for a fixed matrix the emitted subpath sequence
is exactly the dark cells in strict row-major order. -/
theorem generateQrCode_deterministic :
    (∀ (eng : QrEngine) (o₁ o₂ : GenerateQrOptions), o₁ = o₂ →
      generateQrCode eng o₁ = generateQrCode eng o₂) ∧
    (∀ qr : QrCode, toSvgPath qr
        = String.join ((darkCells qr).map fun c => cellSubpath c ++ " ")) ∧
    (∀ qr : QrCode, (darkCells qr).Pairwise rowMajorLt) ∧
    (∀ (qr : QrCode) (c : ℕ × ℕ), c ∈ darkCells qr ↔
      c.1 < qr.size ∧ c.2 < qr.size ∧ qr.getModule c.1 c.2 = true) :=
  ⟨fun _ _ _ h => by rw [h], toSvgPath_eq_join, darkCells_pairwise, mem_darkCells⟩

/-- Witness for C8 at a concrete engine, option record and matrix. -/
theorem generateQrCode_deterministic_witness :
    generateQrCode witEngine witOptions = generateQrCode witEngine witOptions ∧
      ((0, 0) ∈ darkCells witQr ↔
        ((0, 0).1 < witQr.size ∧ (0, 0).2 < witQr.size ∧
          witQr.getModule (0, 0).1 (0, 0).2 = true)) :=
  ⟨generateQrCode_deterministic.1 witEngine witOptions witOptions rfl,
    generateQrCode_deterministic.2.2.2 witQr (0, 0)⟩

/-! ## Claims C7 and C10: viewBox parsing -/

theorem uint32_le_toNat (a b : UInt32) : a ≤ b ↔ a.toNat ≤ b.toNat := by
  rw [UInt32.le_def, BitVec.le_def]
  rfl

theorem char_isDigit_toNat (c : Char) (h : c.isDigit = true) :
    48 ≤ c.toNat ∧ c.toNat ≤ 57 := by
  unfold Char.isDigit at h
  rw [Bool.and_eq_true] at h
  obtain ⟨h1, h2⟩ := h
  rw [decide_eq_true_iff] at h1 h2
  exact ⟨(uint32_le_toNat _ _).mp h1, (uint32_le_toNat _ _).mp h2⟩

theorem isDigitDot_toNat (c : Char) (h : isDigitDot c = true) :
    46 ≤ c.toNat ∧ c.toNat ≤ 57 := by
  unfold isDigitDot at h
  rw [Bool.or_eq_true] at h
  cases h with
  | inl h =>
    have := char_isDigit_toNat c h
    omega
  | inr h =>
    have hc : c = '.' := eq_of_beq h
    subst hc
    exact ⟨by decide, by decide⟩

theorem isDigitDot_not_space (c : Char) (h : isDigitDot c = true) :
    isSpaceJS c = false := by
  obtain ⟨h1, h2⟩ := isDigitDot_toNat c h
  simp only [isSpaceJS, Bool.or_eq_false_iff, beq_eq_false_iff_ne, ne_eq,
    Bool.and_eq_false_iff, decide_eq_false_iff_not, not_le]
  omega

theorem isDigitDot_ne_quote (c : Char) (h : isDigitDot c = true) : c ≠ '"' := by
  obtain ⟨h1, _⟩ := isDigitDot_toNat c h
  intro he
  subst he
  exact absurd h1 (by decide)

theorem litCI_refl_append (l r : List Char) : litCI l (l ++ r) = true := by
  induction l with
  | nil => rfl
  | cons c cs ih =>
    show (charCI c c && litCI cs (cs ++ r)) = true
    rw [ih]
    unfold charCI
    simp

theorem takeWhile_append_all (p : Char → Bool) (l r : List Char)
    (hl : ∀ c ∈ l, p c = true) : (l ++ r).takeWhile p = l ++ r.takeWhile p := by
  induction l with
  | nil => rfl
  | cons c cs ih =>
    rw [List.cons_append, List.takeWhile_cons]
    simp only [hl c (by simp), if_true]
    rw [ih (fun x hx => hl x (by simp [hx]))]
    rfl

/-- The regex tail succeeds at the whitespace preceding the last two
digit-dot tokens, capturing exactly those tokens. -/
theorem viewBoxTail_tokens (w h B : List Char)
    (hw : w ≠ []) (hwd : ∀ c ∈ w, isDigitDot c = true)
    (hh : h ≠ []) (hhd : ∀ c ∈ h, isDigitDot c = true) :
    viewBoxTail (' ' :: (w ++ ' ' :: (h ++ '"' :: B))) = some (w, h) := by
  have hgw : (w ++ ' ' :: (h ++ '"' :: B)).takeWhile isDigitDot = w := by
    rw [takeWhile_append_all _ _ _ hwd, List.takeWhile_cons]
    simp only [(by decide : isDigitDot ' ' = false), Bool.false_eq_true, if_false,
      List.append_nil]
  have hgh : (h ++ '"' :: B).takeWhile isDigitDot = h := by
    rw [takeWhile_append_all _ _ _ hhd, List.takeWhile_cons]
    simp only [(by decide : isDigitDot '"' = false), Bool.false_eq_true, if_false,
      List.append_nil]
  have hwne : w.isEmpty = false := by
    cases w with
    | nil => exact absurd rfl hw
    | cons a as => rfl
  have hhne : h.isEmpty = false := by
    cases h with
    | nil => exact absurd rfl hh
    | cons a as => rfl
  simp only [viewBoxTail, hgw, hgh]
  rw [List.drop_left]
  simp only [(by decide : isSpaceJS ' ' = true), if_true, hwne, Bool.false_eq_true,
    if_false, hgh, hhne]
  rw [List.drop_left]
  rfl

theorem viewBoxTail_none_not_space (c : Char) (rest : List Char)
    (hc : isSpaceJS c = false) : viewBoxTail (c :: rest) = none := by
  simp only [viewBoxTail, hc, Bool.false_eq_true, if_false]

/-- The regex tail fails at any position inside a digit-dot token. -/
theorem viewBoxTail_none_inside (u v : List Char)
    (hud : ∀ c ∈ u, isDigitDot c = true) (i : ℕ) (hi : i < u.length) :
    viewBoxTail ((u ++ v).drop i) = none := by
  rw [List.drop_append_of_le_length (le_of_lt hi),
    List.drop_eq_getElem_cons hi]
  show viewBoxTail ((u.get ⟨i, hi⟩ :: u.drop (i + 1)) ++ v) = none
  rw [List.cons_append]
  exact viewBoxTail_none_not_space _ _
    (isDigitDot_not_space _ (hud _ (u.get_mem i hi)))

/-- The regex tail fails at the whitespace preceding only ONE final token
(the closing quote arrives where a second `\s` is required). -/
theorem viewBoxTail_none_before_last (h B : List Char) (hh : h ≠ [])
    (hhd : ∀ c ∈ h, isDigitDot c = true) :
    viewBoxTail (' ' :: (h ++ '"' :: B)) = none := by
  have hgh : (h ++ '"' :: B).takeWhile isDigitDot = h := by
    rw [takeWhile_append_all _ _ _ hhd, List.takeWhile_cons]
    simp only [(by decide : isDigitDot '"' = false), Bool.false_eq_true, if_false,
      List.append_nil]
  have hhne : h.isEmpty = false := by
    cases h with
    | nil => exact absurd rfl hh
    | cons a as => rfl
  simp only [viewBoxTail, hgh, hhne, (by decide : isSpaceJS ' ' = true), if_true,
    Bool.false_eq_true, if_false]
  rw [List.drop_left]
  rfl

theorem viewBoxTail_none_quote (B : List Char) : viewBoxTail ('"' :: B) = none :=
  viewBoxTail_none_not_space '"' B (by decide)

/-- Greedy backtracking lands on the largest split whose tail matches. -/
theorem viewBoxStar_eval (rest : List Char) (k : ℕ) (r : List Char × List Char)
    (hk : viewBoxTail (rest.drop k) = some r) :
    ∀ n, k ≤ n → (∀ j, k < j → j ≤ n → viewBoxTail (rest.drop j) = none) →
      viewBoxStar n rest = some r := by
  intro n
  induction n with
  | zero =>
    intro hk0 _
    have hz : k = 0 := Nat.le_zero.mp hk0
    subst hz
    show viewBoxTail rest = some r
    simpa using hk
  | succ n ih =>
    intro hkn hnone
    rw [viewBoxStar]
    by_cases hkeq : k = n + 1
    · subst hkeq
      rw [hk]
    · rw [hnone (n + 1) (by omega) (by omega)]
      exact ih (by omega) (fun j h1 h2 => hnone j h1 (by omega))

/-- After the literal, the star/tail matches exactly the last two digit-dot
tokens of the quote-delimited attribute value. -/
theorem viewBoxAfterLit_tokens (P w h B : List Char)
    (hP : ∀ c ∈ P, c ≠ '"')
    (hw : w ≠ []) (hwd : ∀ c ∈ w, isDigitDot c = true)
    (hh : h ≠ []) (hhd : ∀ c ∈ h, isDigitDot c = true) :
    viewBoxAfterLit (P ++ ' ' :: (w ++ ' ' :: (h ++ '"' :: B))) = some (w, h) := by
  have hPq : ∀ c ∈ P, (decide (c ≠ '"')) = true := fun c hc => decide_eq_true (hP c hc)
  have hwq : ∀ c ∈ w, (decide (c ≠ '"')) = true :=
    fun c hc => decide_eq_true (isDigitDot_ne_quote c (hwd c hc))
  have hhq : ∀ c ∈ h, (decide (c ≠ '"')) = true :=
    fun c hc => decide_eq_true (isDigitDot_ne_quote c (hhd c hc))
  have htw : ((P ++ ' ' :: (w ++ ' ' :: (h ++ '"' :: B))).takeWhile
      (fun c => decide (c ≠ '"'))).length = P.length + w.length + h.length + 2 := by
    rw [takeWhile_append_all _ _ _ hPq, List.takeWhile_cons]
    simp only [(by decide : (decide ((' ' : Char) ≠ '"')) = true), if_true]
    rw [takeWhile_append_all _ _ _ hwq, List.takeWhile_cons]
    simp only [(by decide : (decide ((' ' : Char) ≠ '"')) = true), if_true]
    rw [takeWhile_append_all _ _ _ hhq, List.takeWhile_cons]
    simp only [(by decide : (decide (('"' : Char) ≠ '"')) = false), Bool.false_eq_true,
      if_false, List.append_nil]
    simp only [List.length_append, List.length_cons]
    omega
  unfold viewBoxAfterLit
  rw [htw]
  refine viewBoxStar_eval _ P.length (w, h) ?_ _ (by omega) ?_
  · rw [List.drop_left]
    exact viewBoxTail_tokens w h B hw hwd hh hhd
  · intro j h1 h2
    obtain ⟨i, rfl, hi⟩ : ∃ i, j = P.length + (i + 1) ∧ i ≤ w.length + h.length + 1 :=
      ⟨j - P.length - 1, by omega, by omega⟩
    rw [List.drop_append, List.drop_succ_cons]
    rcases lt_trichotomy i w.length with hlt | heq | hgt
    · exact viewBoxTail_none_inside w _ hwd i hlt
    · subst heq
      rw [List.drop_left]
      exact viewBoxTail_none_before_last h B hh hhd
    · obtain ⟨m, rfl, hm⟩ : ∃ m, i = w.length + (m + 1) ∧ m ≤ h.length :=
        ⟨i - w.length - 1, by omega, by omega⟩
      rw [List.drop_append, List.drop_succ_cons]
      rcases lt_or_eq_of_le hm with hlt2 | heq2
      · exact viewBoxTail_none_inside h _ hhd m hlt2
      · subst heq2
        rw [List.drop_left]
        exact viewBoxTail_none_quote B

theorem findViewBox_cons (c : Char) (cs : List Char) :
    findViewBox (c :: cs) =
      if litCI viewBoxLit (c :: cs) then
        match viewBoxAfterLit ((c :: cs).drop viewBoxLit.length) with
        | some r => some r
        | none => findViewBox cs
      else findViewBox cs := by
  rw [findViewBox]

/-- The scan skips any prefix inside which the case-insensitive literal
`viewBox="` matches at no position (positions near the end of the prefix
look across its boundary into the rest of the subject). -/
theorem findViewBox_skip (A l : List Char)
    (hA : ∀ i < A.length, litCI viewBoxLit ((A ++ l).drop i) = false) :
    findViewBox (A ++ l) = findViewBox l := by
  induction A with
  | nil => rfl
  | cons c A2 ih =>
    rw [List.cons_append, findViewBox_cons,
      if_neg (fun hcontra => Bool.noConfusion (hcontra.symm.trans (hA 0 (by simp))))]
    exact ih (fun i hi => hA (i + 1) (by simpa using Nat.succ_lt_succ hi))

theorem findViewBox_at_lit (rest : List Char) (r : List Char × List Char)
    (hs : viewBoxAfterLit rest = some r) :
    findViewBox (viewBoxLit ++ rest) = some r := by
  have hcons : viewBoxLit ++ rest = 'v' :: ("iewBox=\"".data ++ rest) := rfl
  rw [hcons, findViewBox_cons, ← hcons, if_pos (litCI_refl_append viewBoxLit rest),
    List.drop_left, hs]

set_option maxRecDepth 100000 in
/-- C10 counterexample: a viewBox value consisting of only two numeric
tokens, with nothing before them, does NOT match — the pattern demands a
whitespace character before the next-to-last token — so the size falls
back to 512 instead of the claimed max(10, 20) = 20. -/
theorem getSvgSize_two_token_cex :
    getSvgSize "<z viewBox=\"10 20\"/>" = JSNum.num 512 ∧
      getSvgSize "<z viewBox=\"10 20\"/>"
        ≠ jsMax (jsParseDigitDot "10".data) (jsParseDigitDot "20".data) :=
  ⟨by decide, by decide⟩

/-- C10 (amended): for a document in which the case-insensitive literal
`viewBox="` first matches at the genuine attribute (it matches at no
position inside the leading text `A`, which may freely contain `v`s and
other attributes) and whose quoted value ends in two whitespace-preceded
digit-dot tokens `w` and `h` with a finite positive numeric maximum —
whatever else precedes them inside the quotes (min-x/min-y offsets
included) and whatever follows the attribute — the size inference
returns `max(Number(w), Number(h))`, tolerating non-square and offset
declarations rather than failing. -/
theorem getSvgSize_viewBox_tokens (A P w h B : List Char)
    (hA : ∀ i < A.length, litCI viewBoxLit
      ((A ++ viewBoxLit ++ (P ++ ' ' :: (w ++ ' ' :: (h ++ '"' :: B)))).drop i) = false)
    (hP : ∀ c ∈ P, c ≠ '"')
    (hw : w ≠ []) (hwd : ∀ c ∈ w, isDigitDot c = true)
    (hh : h ≠ []) (hhd : ∀ c ∈ h, isDigitDot c = true)
    (hfin : jsIsFinite (jsMax (jsParseDigitDot w) (jsParseDigitDot h)) = true)
    (hpos : jsGt (jsMax (jsParseDigitDot w) (jsParseDigitDot h)) (JSNum.num 0) = true) :
    getSvgSize ⟨A ++ viewBoxLit ++ (P ++ ' ' :: (w ++ ' ' :: (h ++ '"' :: B)))⟩
      = jsMax (jsParseDigitDot w) (jsParseDigitDot h) := by
  have hfind : findViewBox
      (A ++ viewBoxLit ++ (P ++ ' ' :: (w ++ ' ' :: (h ++ '"' :: B)))) = some (w, h) := by
    simp only [List.append_assoc] at hA
    rw [List.append_assoc, findViewBox_skip A _ hA]
    exact findViewBox_at_lit _ _ (viewBoxAfterLit_tokens P w h B hP hw hwd hh hhd)
  unfold getSvgSize
  rw [(rfl : (⟨A ++ viewBoxLit ++ (P ++ ' ' :: (w ++ ' ' :: (h ++ '"' :: B)))⟩ : String).data
    = A ++ viewBoxLit ++ (P ++ ' ' :: (w ++ ' ' :: (h ++ '"' :: B)))), hfind]
  simp only [hfin, hpos, Bool.and_self, if_true]

set_option maxRecDepth 1000000 in
/-- Witness for C10: a realistic document — the renderer's own namespaced
prefix followed by the offset non-square declaration `"5 5 30 20"` —
yields intrinsic size 30, not a parse failure. -/
theorem getSvgSize_viewBox_tokens_witness :
    getSvgSize ⟨"<svg xmlns=\"http://www.w3.org/2000/svg\" ".data ++ viewBoxLit ++
        ("5 5".data ++ ' ' :: ("30".data ++ ' ' :: ("20".data ++ '"' :: "></svg>".data)))⟩
      = JSNum.num 30 :=
  (getSvgSize_viewBox_tokens "<svg xmlns=\"http://www.w3.org/2000/svg\" ".data
    "5 5".data "30".data "20".data "></svg>".data
    (by decide) (by decide) (by decide) (by decide) (by decide) (by decide)
    (by decide) (by decide)).trans (by decide)

set_option maxRecDepth 100000 in
theorem doc25_size : getSvgSize doc25 = JSNum.num 25 ∧ pngExportSize doc25 = JSNum.num 400 := by
  have h1 : getSvgSize doc25 = JSNum.num 25 := by decide
  refine ⟨h1, ?_⟩
  unfold pngExportSize
  rw [h1]
  show JSNum.num ⌊(25 * 16 : ℚ) + 1 / 2⌋ = JSNum.num 400
  norm_num

/-- C7: the raster exporter parses the declared viewBox dimensions, falls
back to 512 when there is no match or the parsed maximum is non-finite or
non-positive, and sets the square raster dimension to
`round(intrinsicSize × 16)`; in particular a document with
`viewBox="0 0 25 25"` yields a 400×400 raster. -/
theorem rasterExport_size_inference :
    (∀ svg : String, findViewBox svg.data = none →
      getSvgSize svg = JSNum.num DEFAULT_PNG_SIZE) ∧
    (∀ (svg : String) (w h : List Char), findViewBox svg.data = some (w, h) →
      (jsIsFinite (jsMax (jsParseDigitDot w) (jsParseDigitDot h)) &&
        jsGt (jsMax (jsParseDigitDot w) (jsParseDigitDot h)) (JSNum.num 0)) = false →
      getSvgSize svg = JSNum.num DEFAULT_PNG_SIZE) ∧
    (∀ (svg : String) (w h : List Char), findViewBox svg.data = some (w, h) →
      (jsIsFinite (jsMax (jsParseDigitDot w) (jsParseDigitDot h)) &&
        jsGt (jsMax (jsParseDigitDot w) (jsParseDigitDot h)) (JSNum.num 0)) = true →
      getSvgSize svg = jsMax (jsParseDigitDot w) (jsParseDigitDot h)) ∧
    (∀ svg : String,
      pngExportSize svg = jsRound (jsMul (getSvgSize svg) (JSNum.num PNG_SCALE))) ∧
    (getSvgSize doc25 = JSNum.num 25 ∧ pngExportSize doc25 = JSNum.num 400) := by
  refine ⟨?_, ?_, ?_, fun _ => rfl, doc25_size⟩
  · intro svg hf
    unfold getSvgSize
    rw [hf]
  · intro svg w h hf hcond
    unfold getSvgSize
    rw [hf]
    simp only [hcond, Bool.false_eq_true, if_false]
  · intro svg w h hf hcond
    unfold getSvgSize
    rw [hf]
    simp only [hcond, if_true]

/-- Witness for C7 at concrete documents: no match, a non-positive
declaration, and a well-formed declaration. -/
theorem rasterExport_size_inference_witness :
    getSvgSize "plain text" = JSNum.num DEFAULT_PNG_SIZE ∧
    getSvgSize "<z viewBox=\"0 0 0 0\"/>" = JSNum.num DEFAULT_PNG_SIZE ∧
    getSvgSize "<z viewBox=\"0 0 21 25\"/>"
      = jsMax (jsParseDigitDot ['2', '1']) (jsParseDigitDot ['2', '5']) :=
  ⟨rasterExport_size_inference.1 "plain text" (by decide),
    rasterExport_size_inference.2.1 "<z viewBox=\"0 0 0 0\"/>" ['0'] ['0']
      (by decide) (by decide),
    rasterExport_size_inference.2.2.1 "<z viewBox=\"0 0 21 25\"/>" ['2', '1'] ['2', '5']
      (by decide) (by decide)⟩

end QrGen
